import Mathlib

/-!
Verification of two kernel driver components:
* `drivers/devfreq/devfreq_boost.c` — a devfreq frequency-boost controller
  driven by input events, display blank events and explicit kicks;
* `drivers/staging/android/ion/ion_page_pool.c` — a two-tier page pool with
  a global page counter and a scan-bounded shrinker.

Each C function relevant to the checked properties is embedded as a Lean
function over explicit state; kernel collaborators (trylock outcome, pending
fatal signal, fresh allocation result, kswapd identity, gfp flags) appear as
boolean or optional parameters.
-/

namespace DevfreqBoost

/-- The three bits of `boost_dev.state` in devfreq_boost.c
(`SCREEN_OFF`, `INPUT_BOOST`, `MAX_BOOST`), embedded as a record of booleans. -/
structure BoostState where
  screen_off : Bool
  input_boost : Bool
  max_boost : Bool
  deriving Repr, DecidableEq

/-- The parts of `struct boost_dev` the boost logic reads and writes:
`df` (whether the governor handle is registered, i.e. non-NULL), the
configured `boost_freq`, the `state` bitset, and whether the `unboost`
delayed work is currently pending. -/
structure BoostDev where
  df : Bool
  boost_freq : Nat
  state : BoostState
  timer_pending : Bool
  deriving Repr, DecidableEq

/-- Observable effect of one producer-side operation: the updated device,
whether `mod_delayed_work` was invoked (the unboost deadline was armed or
rearmed), and whether `wake_up` was invoked on the boost waitqueue. -/
structure KickEffect where
  dev : BoostDev
  timer_armed : Bool
  woke : Bool
  deriving Repr, DecidableEq

/-- Embedding of `__devfreq_boost_kick`: returns immediately when the
governor handle is absent or SCREEN_OFF is set; otherwise sets MAX_BOOST and
clears INPUT_BOOST (for `max`), or sets INPUT_BOOST alone (for `!max`), then
calls `mod_delayed_work` and wakes the worker only when no unboost work was
already pending. -/
def devfreq_boost_kick (b : BoostDev) (max : Bool) : KickEffect :=
  if !b.df || b.state.screen_off then
    ⟨b, false, false⟩
  else
    let st :=
      if max then
        { b.state with max_boost := true, input_boost := false }
      else
        { b.state with input_boost := true }
    ⟨{ b with state := st, timer_pending := true }, true, !b.timer_pending⟩

/-- Embedding of `devfreq_unboost` (the delayed-work callback): clears
MAX_BOOST and INPUT_BOOST and wakes the worker; the work item is no longer
pending once it runs. -/
def devfreq_unboost (b : BoostDev) : KickEffect :=
  ⟨{ b with
      state := { b.state with max_boost := false, input_boost := false },
      timer_pending := false },
    false, true⟩

/-- Embedding of the per-device body of `msm_drm_notifier_cb` for a blank
event: sets SCREEN_OFF and wakes the worker. -/
def screen_off_event (b : BoostDev) : KickEffect :=
  ⟨{ b with state := { b.state with screen_off := true } }, false, true⟩

/-- Embedding of the per-device body of `msm_drm_notifier_cb` for an unblank
event: clears SCREEN_OFF without waking the worker. -/
def screen_on_event (b : BoostDev) : KickEffect :=
  ⟨{ b with state := { b.state with screen_off := false } }, false, false⟩

/-- Embedding of `devfreq_register_boost_device`: binds the governor
handle. -/
def devfreq_register_boost_device (b : BoostDev) : BoostDev :=
  { b with df := true }

/-- The fields of `struct devfreq` read and written by
`devfreq_update_boosts`: the minimum frequency it sets, the device maximum
frequency, and the first (minimum) entry of the profile frequency table. -/
structure Devfreq where
  min_freq : Nat
  max_freq : Nat
  freq_table0 : Nat
  deriving Repr, DecidableEq

/-- Embedding of `devfreq_update_boosts`: the frequency the worker pushes to
the governor, following the if/else chain of the source. -/
def devfreq_update_boosts (boost_freq : Nat) (df : Devfreq) (state : BoostState) :
    Devfreq :=
  if state.screen_off then
    { df with min_freq := df.freq_table0 }
  else if state.max_boost then
    { df with min_freq := df.max_freq }
  else
    { df with min_freq :=
        if state.input_boost then min boost_freq df.max_freq else df.freq_table0 }

/-- Modelled from the spec (section 4.3 wording, for refinement comparison
with `devfreq_update_boosts`): the effective applied frequency by precedence
SCREEN_OFF, then MAX_BOOST, then INPUT_BOOST, else the minimum table
frequency. -/
def spec_applied_freq (boost_freq : Nat) (df : Devfreq) (state : BoostState) : Nat :=
  if state.screen_off then df.freq_table0
  else if state.max_boost then df.max_freq
  else if state.input_boost then min boost_freq df.max_freq
  else df.freq_table0

/-- Producer-side operations a boost device can undergo at runtime. -/
inductive BoostOp where
  | register
  | kick (max : Bool)
  | unboost
  | screenOff
  | screenOn
  deriving Repr, DecidableEq

/-- Apply one operation to a device, discarding the wake/timer effect. -/
def applyOp (b : BoostDev) (op : BoostOp) : BoostDev :=
  match op with
  | .register => devfreq_register_boost_device b
  | .kick max => (devfreq_boost_kick b max).dev
  | .unboost => (devfreq_unboost b).dev
  | .screenOff => (screen_off_event b).dev
  | .screenOn => (screen_on_event b).dev

/-- Run a sequence of operations from a given device state. -/
def runOps (b : BoostDev) (ops : List BoostOp) : BoostDev :=
  ops.foldl applyOp b

/-- A device as initialized by `BOOST_DEV_INIT`: no governor handle bound,
all state bits clear, no pending unboost work. -/
def initDev (freq : Nat) : BoostDev :=
  { df := false, boost_freq := freq,
    state := ⟨false, false, false⟩, timer_pending := false }

/-- A concrete registered device (MAX_BOOST set, screen on) used to
instantiate the general boost theorems. -/
def sampleDev : BoostDev :=
  { df := true, boost_freq := 5,
    state := ⟨false, false, true⟩, timer_pending := false }

end DevfreqBoost

namespace IonPool

/-- A pooled page: an opaque identity plus whether `PageHighMem` holds for
it (which decides the tier at insertion). -/
structure Page where
  id : Nat
  highmem : Bool
  deriving Repr, DecidableEq

instance : Inhabited Page := ⟨⟨0, false⟩⟩

/-- The fields of `struct ion_page_pool` the pool logic touches: the two
item lists, their counts, and the size-class order.  Lists are kept
front-to-back, so `list_add_tail` appends and `list_first_entry` is the
head. -/
structure PoolState where
  order : Nat
  low_items : List Page
  high_items : List Page
  low_count : Nat
  high_count : Nat
  deriving Repr, DecidableEq

/-- The structural invariant of a pool: each count matches the length of its
list (in the kernel both are only mutated together under the pool lock). -/
def wf (p : PoolState) : Prop :=
  p.low_count = p.low_items.length ∧ p.high_count = p.high_items.length

instance (p : PoolState) : Decidable (wf p) := by
  unfold wf; infer_instance

/-- ERR_PTR error code for a pending fatal signal. -/
def EINTR : Nat := 4
/-- ERR_PTR error code for allocation failure. -/
def ENOMEM : Nat := 12
/-- ERR_PTR error code for a NULL pool argument. -/
def EINVAL : Nat := 22

/-- Outcome of a kernel-style call: a value, an `ERR_PTR(-errno)`, or a
`BUG_ON` firing (the modelled counterpart of an unreachable assertion
failure / undefined list access). -/
inductive KRes (α : Type) where
  | ok : α → KRes α
  | err : Nat → KRes α
  | bug : KRes α
  deriving Repr, DecidableEq

/-- A fresh pool as produced by `ion_page_pool_create`: both counts zero,
both lists empty. -/
def ion_page_pool_create (order : Nat) : PoolState :=
  { order := order, low_items := [], high_items := [],
    low_count := 0, high_count := 0 }

/-- Embedding of `ion_page_pool_add`: append the page to the tail of the
list of its tier, bump that tier's count, and add `1 << order` to the global
`nr_total_pages` counter.  Returns the updated pool and counter. -/
def ion_page_pool_add (pool : PoolState) (page : Page) (nr : Int) :
    PoolState × Int :=
  if page.highmem then
    ({ pool with high_items := pool.high_items ++ [page],
                 high_count := pool.high_count + 1 }, nr + 2 ^ pool.order)
  else
    ({ pool with low_items := pool.low_items ++ [page],
                 low_count := pool.low_count + 1 }, nr + 2 ^ pool.order)

/-- Embedding of `ion_page_pool_remove`: `BUG_ON` when the selected tier's
count is zero (modelled as `none`), otherwise take `list_first_entry` of
that tier's list, decrement the count, and subtract `1 << order` from the
global counter.  An empty list (possible only on an ill-formed pool) is also
`none`, standing for the undefined `list_first_entry` access. -/
def ion_page_pool_remove (pool : PoolState) (high : Bool) (nr : Int) :
    Option (Page × PoolState × Int) :=
  if high then
    if pool.high_count = 0 then none
    else
      match pool.high_items with
      | [] => none
      | p :: rest =>
        some (p, { pool with high_items := rest,
                             high_count := pool.high_count - 1 },
              nr - 2 ^ pool.order)
  else
    if pool.low_count = 0 then none
    else
      match pool.low_items with
      | [] => none
      | p :: rest =>
        some (p, { pool with low_items := rest,
                             low_count := pool.low_count - 1 },
              nr - 2 ^ pool.order)

/-- Embedding of `ion_page_pool_alloc`.  Environment parameters: `fatal`
(whether `fatal_signal_pending(current)` holds), `from_pool` (the in-value
of the out-parameter), `lockOk` (whether `spin_trylock` succeeds), and
`fresh` (what `alloc_pages` would return on the fallback path).  Returns the
call result paired with the returned `*from_pool`, plus the pool state and
global counter after the call. -/
def ion_page_pool_alloc (pool : PoolState) (nr : Int)
    (fatal from_pool lockOk : Bool) (fresh : Option Page) :
    KRes (Page × Bool) × PoolState × Int :=
  if fatal then (.err EINTR, pool, nr)
  else if from_pool && lockOk then
    if pool.high_count ≠ 0 then
      match ion_page_pool_remove pool true nr with
      | none => (.bug, pool, nr)
      | some (p, st, nr2) => (.ok (p, true), st, nr2)
    else if pool.low_count ≠ 0 then
      match ion_page_pool_remove pool false nr with
      | none => (.bug, pool, nr)
      | some (p, st, nr2) => (.ok (p, true), st, nr2)
    else
      match fresh with
      | some p => (.ok (p, false), pool, nr)
      | none => (.err ENOMEM, pool, nr)
  else
    match fresh with
    | some p => (.ok (p, false), pool, nr)
    | none => (.err ENOMEM, pool, nr)

/-- Embedding of `ion_page_pool_alloc_pool_only`: `EINVAL` on a NULL pool;
otherwise a non-blocking lock attempt, a pool-only pop preferring HIGH, and
`ENOMEM` when nothing was obtained.  Never consults the external
allocator. -/
def ion_page_pool_alloc_pool_only (pool? : Option PoolState) (lockOk : Bool)
    (nr : Int) : KRes Page × Option PoolState × Int :=
  match pool? with
  | none => (.err EINVAL, none, nr)
  | some pool =>
    if lockOk then
      if pool.high_count ≠ 0 then
        match ion_page_pool_remove pool true nr with
        | none => (.bug, some pool, nr)
        | some (p, st, nr2) => (.ok p, some st, nr2)
      else if pool.low_count ≠ 0 then
        match ion_page_pool_remove pool false nr with
        | none => (.bug, some pool, nr)
        | some (p, st, nr2) => (.ok p, some st, nr2)
      else (.err ENOMEM, some pool, nr)
    else (.err ENOMEM, some pool, nr)

/-- Embedding of `ion_page_pool_free`: delegates to `ion_page_pool_add`. -/
def ion_page_pool_free (pool : PoolState) (page : Page) (nr : Int) :
    PoolState × Int :=
  ion_page_pool_add pool page nr

/-- Embedding of `ion_page_pool_total`: `low_count`, plus `high_count` when
`high`, shifted by the pool order. -/
def ion_page_pool_total (pool : PoolState) (high : Bool) : Nat :=
  (pool.low_count + if high then pool.high_count else 0) <<< pool.order

/-- Embedding of `ion_page_pool_nr_pages`: clamp the global counter to zero
when racy writes drove it negative, then return it.  Result is the returned
value paired with the counter as stored after the call. -/
def ion_page_pool_nr_pages (nr : Int) : Int × Int :=
  if nr < 0 then (0, 0) else (nr, nr)

/-- Length of both lists together; the termination measure of the shrink
loop. -/
def poolSize (pool : PoolState) : Nat :=
  pool.low_items.length + pool.high_items.length

/-- The eviction loop of `ion_page_pool_shrink`: while `freed < nr_to_scan`,
pop from LOW if nonempty, else from HIGH if permitted and nonempty, else
stop; each pop frees `1 << order` base units. -/
def shrinkLoop (high : Bool) (nr_to_scan : Nat) (pool : PoolState) (nr : Int)
    (freed : Nat) : KRes Nat × PoolState × Int :=
  if freed < nr_to_scan then
    if pool.low_count ≠ 0 then
      match h : ion_page_pool_remove pool false nr with
      | none => (.bug, pool, nr)
      | some (_, st, nr2) => shrinkLoop high nr_to_scan st nr2 (freed + 2 ^ pool.order)
    else if high && pool.high_count ≠ 0 then
      match h : ion_page_pool_remove pool true nr with
      | none => (.bug, pool, nr)
      | some (_, st, nr2) => shrinkLoop high nr_to_scan st nr2 (freed + 2 ^ pool.order)
    else (.ok freed, pool, nr)
  else (.ok freed, pool, nr)
termination_by poolSize pool
decreasing_by
  · unfold ion_page_pool_remove at h
    simp only [Bool.false_eq_true, if_false] at h
    split at h
    · exact absurd h (by simp)
    · cases hl : pool.low_items with
      | nil => rw [hl] at h; exact absurd h (by simp)
      | cons q rest =>
        rw [hl] at h
        simp only [Option.some.injEq, Prod.mk.injEq] at h
        obtain ⟨-, hst, -⟩ := h
        subst hst
        simp [poolSize, hl]
  · unfold ion_page_pool_remove at h
    simp only [if_true] at h
    split at h
    · exact absurd h (by simp)
    · cases hl : pool.high_items with
      | nil => rw [hl] at h; exact absurd h (by simp)
      | cons q rest =>
        rw [hl] at h
        simp only [Option.some.injEq, Prod.mk.injEq] at h
        obtain ⟨-, hst, -⟩ := h
        subst hst
        simp [poolSize, hl]

/-- Embedding of `ion_page_pool_shrink`.  The high-tier privilege is
`current_is_kswapd() || (gfp_mask & __GFP_HIGHMEM)`, modelled by the two
booleans.  `nr_to_scan == 0` is a pure query returning
`ion_page_pool_total`; otherwise the eviction loop runs. -/
def ion_page_pool_shrink (pool : PoolState) (kswapd gfp_highmem : Bool)
    (nr_to_scan : Nat) (nr : Int) : KRes Nat × PoolState × Int :=
  let high := if kswapd then true else gfp_highmem
  if nr_to_scan = 0 then (.ok (ion_page_pool_total pool high), pool, nr)
  else shrinkLoop high nr_to_scan pool nr 0

/-- Free a whole list of pages into the pool in order (left to right),
threading the global counter. -/
def freeAll (pool : PoolState) (ps : List Page) (nr : Int) : PoolState × Int :=
  ps.foldl (fun acc p => ion_page_pool_free acc.1 p acc.2) (pool, nr)

/-- The freed count reported by a shrink call (zero on the error paths the
theorems prove unreachable). -/
def freedOf (r : KRes Nat × PoolState × Int) : Nat :=
  match r.1 with
  | KRes.ok n => n
  | _ => 0

/-- Concrete low-memory pages for instantiating the general pool
theorems. -/
def pageA : Page := ⟨1, false⟩

/-- A second concrete low-memory page. -/
def pageB : Page := ⟨2, false⟩

/-- A concrete high-memory page. -/
def pageH : Page := ⟨3, true⟩

/-- A concrete well-formed pool of order 0 with two low pages and one high
page. -/
def samplePool : PoolState :=
  { order := 0, low_items := [pageA, pageB], high_items := [pageH],
    low_count := 2, high_count := 1 }

end IonPool

namespace DevfreqBoost

/-- C1: counterexample.  Starting from a freshly registered device, a kick
with `max = true` followed by a kick with `max = false` leaves MAX_BOOST and
INPUT_BOOST set simultaneously: the `max = false` branch of
`__devfreq_boost_kick` sets INPUT_BOOST without clearing MAX_BOOST, so the
two bits are not mutually exclusive. -/
theorem kick_false_leaves_max_boost_set :
    (runOps (initDev 100) [.register, .kick true, .kick false]).state.max_boost
        = true ∧
    (runOps (initDev 100) [.register, .kick true, .kick false]).state.input_boost
        = true := by
  decide

/-- C1 (amended): on a registered device with the screen on, kick with
`max = true` sets MAX_BOOST and clears INPUT_BOOST, while kick with
`max = false` sets INPUT_BOOST and leaves MAX_BOOST unchanged — exclusion is
enforced in one direction only, so both bits can be set at once. -/
theorem kick_one_way_exclusion (b : BoostDev) (hdf : b.df = true)
    (hso : b.state.screen_off = false) :
    ((devfreq_boost_kick b true).dev.state.max_boost = true ∧
     (devfreq_boost_kick b true).dev.state.input_boost = false) ∧
    ((devfreq_boost_kick b false).dev.state.input_boost = true ∧
     (devfreq_boost_kick b false).dev.state.max_boost = b.state.max_boost) := by
  simp [devfreq_boost_kick, hdf, hso]

/-- Witness for `kick_one_way_exclusion` at the concrete device
`sampleDev`. -/
theorem kick_one_way_exclusion_witness :
    sampleDev.df = true ∧ sampleDev.state.screen_off = false ∧
    (((devfreq_boost_kick sampleDev true).dev.state.max_boost = true ∧
      (devfreq_boost_kick sampleDev true).dev.state.input_boost = false) ∧
     ((devfreq_boost_kick sampleDev false).dev.state.input_boost = true ∧
      (devfreq_boost_kick sampleDev false).dev.state.max_boost
          = sampleDev.state.max_boost)) :=
  ⟨by decide, by decide,
   kick_one_way_exclusion sampleDev (by decide) (by decide)⟩

/-- C3: for every 3-bit boost state, the frequency `devfreq_update_boosts`
writes into the governor's `min_freq` is exactly the spec precedence:
SCREEN_OFF forces the minimum table frequency even when MAX_BOOST or
INPUT_BOOST is also set; otherwise MAX_BOOST yields the device maximum;
otherwise INPUT_BOOST yields `min(boost_freq, max_freq)`; otherwise the
minimum table frequency.  The other governor fields are untouched. -/
theorem update_boosts_matches_spec_precedence (bf : Nat) (df : Devfreq)
    (s : BoostState) :
    (devfreq_update_boosts bf df s).min_freq = spec_applied_freq bf df s ∧
    (devfreq_update_boosts bf df s).max_freq = df.max_freq ∧
    (devfreq_update_boosts bf df s).freq_table0 = df.freq_table0 := by
  rcases s with ⟨so, ib, mb⟩
  cases so <;> cases ib <;> cases mb <;>
    simp [devfreq_update_boosts, spec_applied_freq]

/-- C9: a kick on a device whose governor handle is absent, or whose
SCREEN_OFF bit is set, is a complete no-op for either value of `max`: the
device (state bitset and pending-timer flag) is unchanged, the unboost
deadline is not armed or rearmed, and the worker is not woken. -/
theorem kick_noop_when_unregistered_or_screen_off (b : BoostDev) (max : Bool)
    (h : b.df = false ∨ b.state.screen_off = true) :
    devfreq_boost_kick b max = ⟨b, false, false⟩ := by
  rcases h with h | h <;> simp [devfreq_boost_kick, h]

/-- Witness for `kick_noop_when_unregistered_or_screen_off` at the
unregistered device `initDev 7` with `max = true`. -/
theorem kick_noop_witness :
    ((initDev 7).df = false ∨ (initDev 7).state.screen_off = true) ∧
    devfreq_boost_kick (initDev 7) true = ⟨initDev 7, false, false⟩ :=
  ⟨Or.inl (by decide),
   kick_noop_when_unregistered_or_screen_off (initDev 7) true
     (Or.inl (by decide))⟩

end DevfreqBoost

namespace IonPool

theorem wf_low_items_cons {pool : PoolState} (hwf : wf pool)
    (hc : pool.low_count ≠ 0) : ∃ p rest, pool.low_items = p :: rest := by
  rcases hwf with ⟨h1, -⟩
  cases hl : pool.low_items with
  | nil => rw [hl] at h1; simp at h1; exact absurd h1 hc
  | cons p rest => exact ⟨p, rest, rfl⟩

theorem wf_high_items_cons {pool : PoolState} (hwf : wf pool)
    (hc : pool.high_count ≠ 0) : ∃ p rest, pool.high_items = p :: rest := by
  rcases hwf with ⟨-, h2⟩
  cases hl : pool.high_items with
  | nil => rw [hl] at h2; simp at h2; exact absurd h2 hc
  | cons p rest => exact ⟨p, rest, rfl⟩

theorem remove_low_eq (pool : PoolState) (nr : Int) (p : Page)
    (rest : List Page) (hl : pool.low_items = p :: rest)
    (hc : pool.low_count ≠ 0) :
    ion_page_pool_remove pool false nr =
      some (p, { pool with low_items := rest,
                           low_count := pool.low_count - 1 },
            nr - 2 ^ pool.order) := by
  simp [ion_page_pool_remove, hc, hl]

theorem remove_high_eq (pool : PoolState) (nr : Int) (p : Page)
    (rest : List Page) (hl : pool.high_items = p :: rest)
    (hc : pool.high_count ≠ 0) :
    ion_page_pool_remove pool true nr =
      some (p, { pool with high_items := rest,
                           high_count := pool.high_count - 1 },
            nr - 2 ^ pool.order) := by
  simp [ion_page_pool_remove, hc, hl]

/-- C6: when a fatal termination signal is pending, `ion_page_pool_alloc`
returns the EINTR error before touching the pool: the lists, the counts and
the global page counter are all unchanged, and no fallback allocation is
consulted (the result is the same whatever `fresh` would have supplied). -/
theorem alloc_fatal_signal_no_side_effects (pool : PoolState) (nr : Int)
    (from_pool lockOk : Bool) (fresh : Option Page) :
    ion_page_pool_alloc pool nr true from_pool lockOk fresh =
      (KRes.err EINTR, pool, nr) := by
  simp [ion_page_pool_alloc]

/-- C7: `ion_page_pool_shrink` with a zero scan budget is a pure query: it
returns `ion_page_pool_total` with the high tier included exactly when the
caller is privileged (kswapd, or `__GFP_HIGHMEM` in the mask), and leaves the
pool state and global counter untouched. -/
theorem shrink_zero_pure_query (pool : PoolState) (kswapd ghm : Bool)
    (nr : Int) :
    ion_page_pool_shrink pool kswapd ghm 0 nr =
      (KRes.ok (ion_page_pool_total pool (kswapd || ghm)), pool, nr) := by
  cases kswapd <;> simp [ion_page_pool_shrink]

/-- C8: every `ion_page_pool_add` raises the global page counter by exactly
`2 ^ order`, every successful `ion_page_pool_remove` lowers it by exactly
`2 ^ order`, and `ion_page_pool_nr_pages` never returns a negative value:
a counter driven below zero by racy updates is clamped to zero on read. -/
theorem counter_deltas_and_clamp (pool : PoolState) (page : Page)
    (nr m : Int) (hi : Bool) (p : Page) (st : PoolState) (nr2 : Int)
    (hrem : ion_page_pool_remove pool hi nr = some (p, st, nr2)) :
    (ion_page_pool_add pool page nr).2 = nr + 2 ^ pool.order ∧
    nr2 = nr - 2 ^ pool.order ∧
    0 ≤ (ion_page_pool_nr_pages m).1 := by
  refine ⟨?_, ?_, ?_⟩
  · unfold ion_page_pool_add
    split <;> rfl
  · unfold ion_page_pool_remove at hrem
    split at hrem <;>
    · split at hrem
      · simp at hrem
      · split at hrem
        · simp at hrem
        · simp only [Option.some.injEq, Prod.mk.injEq] at hrem
          exact hrem.2.2.symm
  · unfold ion_page_pool_nr_pages
    split
    · simp
    · simpa using le_of_not_lt (by assumption)

/-- Witness for `counter_deltas_and_clamp`: remove the head low page of
`samplePool` (order 0) at counter 5, add a page, and read a counter of -3. -/
theorem counter_deltas_and_clamp_witness :
    ion_page_pool_remove samplePool false 5 =
      some (pageA, { samplePool with low_items := [pageB], low_count := 1 },
            4) ∧
    ((ion_page_pool_add samplePool pageH 5).2 = 5 + 2 ^ samplePool.order ∧
     (4 : Int) = 5 - 2 ^ samplePool.order ∧
     0 ≤ (ion_page_pool_nr_pages (-3)).1) :=
  ⟨by decide,
   counter_deltas_and_clamp samplePool pageH 5 (-3) false pageA
     { samplePool with low_items := [pageB], low_count := 1 } 4 (by decide)⟩

/-- C2: counterexample.  On an empty order-0 pool, `alloc_pool_only` fails
with the very same ENOMEM code that `ion_page_pool_alloc` uses when pool and
fallback are both exhausted — the source has no distinct NotFound error. -/
theorem alloc_pool_only_enomem_not_distinct :
    (ion_page_pool_alloc_pool_only (some (ion_page_pool_create 0)) true 0).1
        = KRes.err ENOMEM ∧
    (ion_page_pool_alloc (ion_page_pool_create 0) 0 false true true none).1
        = KRes.err ENOMEM := by
  decide

/-- Complete characterization of `alloc_pool_only` on a well-formed pool in
terms of its item lists. -/
theorem alloc_pool_only_eq (pool : PoolState) (lockOk : Bool) (nr : Int)
    (hwf : wf pool) :
    ion_page_pool_alloc_pool_only (some pool) lockOk nr =
      (if lockOk then
        match pool.high_items, pool.low_items with
        | p :: rest, _ =>
          (KRes.ok p,
           some { pool with high_items := rest,
                            high_count := pool.high_count - 1 },
           nr - 2 ^ pool.order)
        | [], p :: rest =>
          (KRes.ok p,
           some { pool with low_items := rest,
                            low_count := pool.low_count - 1 },
           nr - 2 ^ pool.order)
        | [], [] => (KRes.err ENOMEM, some pool, nr)
       else (KRes.err ENOMEM, some pool, nr)) := by
  obtain ⟨hwl, hwh⟩ := hwf
  unfold ion_page_pool_alloc_pool_only
  cases lockOk with
  | false => simp
  | true =>
    simp only [if_true]
    cases hh : pool.high_items with
    | cons p rest =>
      have hc : pool.high_count ≠ 0 := by rw [hwh, hh]; simp
      rw [remove_high_eq pool nr p rest hh hc]
      simp [hc]
    | nil =>
      have hc : pool.high_count = 0 := by rw [hwh, hh]; rfl
      cases hl : pool.low_items with
      | cons p rest =>
        have hlc : pool.low_count ≠ 0 := by rw [hwl, hl]; simp
        rw [remove_low_eq pool nr p rest hl hlc]
        simp [hc, hlc, hh]
      | nil =>
        have hlc : pool.low_count = 0 := by rw [hwl, hl]; rfl
        simp [hc, hlc]

/-- C2 (amended): on a well-formed pool, `alloc_pool_only` yields the head
entry of the HIGH list if any, else the head of the LOW list, decrementing
the matching count and the global counter; it returns an error — the shared
ENOMEM code, not a distinct NotFound — exactly when the non-blocking lock
attempt fails or both tiers are empty, leaving everything unchanged; it
never falls back to fresh allocation from the external allocator. -/
theorem alloc_pool_only_spec (pool : PoolState) (lockOk : Bool) (nr : Int)
    (hwf : wf pool) :
    ion_page_pool_alloc_pool_only (some pool) lockOk nr =
      (if lockOk then
        match pool.high_items, pool.low_items with
        | p :: rest, _ =>
          (KRes.ok p,
           some { pool with high_items := rest,
                            high_count := pool.high_count - 1 },
           nr - 2 ^ pool.order)
        | [], p :: rest =>
          (KRes.ok p,
           some { pool with low_items := rest,
                            low_count := pool.low_count - 1 },
           nr - 2 ^ pool.order)
        | [], [] => (KRes.err ENOMEM, some pool, nr)
       else (KRes.err ENOMEM, some pool, nr)) :=
  alloc_pool_only_eq pool lockOk nr hwf

/-- Witness for `alloc_pool_only_spec` at `samplePool` with an uncontended
lock: the high page comes back and the high tier empties. -/
theorem alloc_pool_only_spec_witness :
    wf samplePool ∧
    ion_page_pool_alloc_pool_only (some samplePool) true 0 =
      (KRes.ok pageH,
       some { samplePool with high_items := [], high_count := 0 }, -1) :=
  ⟨by decide,
   Eq.trans (alloc_pool_only_spec samplePool true 0 (by decide)) (by decide)⟩

theorem freeAll_spec (ps : List Page) :
    ∀ (pool : PoolState) (nr : Int),
      (freeAll pool ps nr).1.order = pool.order ∧
      (freeAll pool ps nr).1.low_items
        = pool.low_items ++ ps.filter (fun q => !q.highmem) ∧
      (freeAll pool ps nr).1.high_items
        = pool.high_items ++ ps.filter (fun q => q.highmem) ∧
      (freeAll pool ps nr).1.low_count
        = pool.low_count + (ps.filter (fun q => !q.highmem)).length ∧
      (freeAll pool ps nr).1.high_count
        = pool.high_count + (ps.filter (fun q => q.highmem)).length := by
  induction ps with
  | nil => intro pool nr; simp [freeAll]
  | cons p ps IH =>
    intro pool nr
    have hstep : freeAll pool (p :: ps) nr
        = freeAll (ion_page_pool_add pool p nr).1 ps
            (ion_page_pool_add pool p nr).2 := rfl
    rw [hstep]
    obtain ⟨h0, h1, h2, h3, h4⟩ :=
      IH (ion_page_pool_add pool p nr).1 (ion_page_pool_add pool p nr).2
    rw [h0, h1, h2, h3, h4]
    cases hp : p.highmem <;>
      simp [ion_page_pool_add, hp, List.filter_cons] <;> omega

theorem alloc_uncontended_spec (pool : PoolState) (nr : Int)
    (fresh : Option Page) (hwf : wf pool) :
    ion_page_pool_alloc pool nr false true true fresh =
      (match pool.high_items, pool.low_items with
       | p :: rest, _ =>
         (KRes.ok (p, true),
          { pool with high_items := rest,
                      high_count := pool.high_count - 1 },
          nr - 2 ^ pool.order)
       | [], p :: rest =>
         (KRes.ok (p, true),
          { pool with low_items := rest,
                      low_count := pool.low_count - 1 },
          nr - 2 ^ pool.order)
       | [], [] =>
         match fresh with
         | some q => (KRes.ok (q, false), pool, nr)
         | none => (KRes.err ENOMEM, pool, nr)) := by
  obtain ⟨hwl, hwh⟩ := hwf
  unfold ion_page_pool_alloc
  cases hh : pool.high_items with
  | cons p rest =>
    have hc : pool.high_count ≠ 0 := by rw [hwh, hh]; simp
    rw [remove_high_eq pool nr p rest hh hc]
    simp [hc]
  | nil =>
    have hc : pool.high_count = 0 := by rw [hwh, hh]; rfl
    cases hl : pool.low_items with
    | cons p rest =>
      have hlc : pool.low_count ≠ 0 := by rw [hwl, hl]; simp
      rw [remove_low_eq pool nr p rest hl hlc]
      simp [hc, hlc, hh]
    | nil =>
      have hlc : pool.low_count = 0 := by rw [hwl, hl]; rfl
      cases fresh <;> simp [hc, hlc, hh]

/-- C5: on an uncontended pool built by freeing the pages `ps` in order into
an empty pool, `ion_page_pool_alloc` with `prefer_pool` returns the
oldest-inserted entry of the highest non-empty tier: the head of the
high-memory pages of `ps` in insertion order if there are any, else the head
of the low-memory pages in insertion order.  In particular, after free
A(low) then free B(low) on an empty pool, alloc returns A. -/
theorem alloc_fifo_highest_tier (order : Nat) (ps : List Page) (nr : Int)
    (fresh : Option Page) (hne : ps ≠ []) :
    (ion_page_pool_alloc (freeAll (ion_page_pool_create order) ps nr).1
        (freeAll (ion_page_pool_create order) ps nr).2
        false true true fresh).1 =
      KRes.ok
        (if ps.filter (fun q => q.highmem) ≠ [] then
           (ps.filter (fun q => q.highmem)).headI
         else (ps.filter (fun q => !q.highmem)).headI, true) := by
  obtain ⟨h0, h1, h2, h3, h4⟩ := freeAll_spec ps (ion_page_pool_create order) nr
  have hwf : wf (freeAll (ion_page_pool_create order) ps nr).1 := by
    constructor
    · rw [h1, h3]; simp [ion_page_pool_create]
    · rw [h2, h4]; simp [ion_page_pool_create]
  rw [alloc_uncontended_spec _ _ fresh hwf]
  rw [show (freeAll (ion_page_pool_create order) ps nr).1.high_items
        = ps.filter (fun q => q.highmem) by rw [h2]; simp [ion_page_pool_create]]
  rw [show (freeAll (ion_page_pool_create order) ps nr).1.low_items
        = ps.filter (fun q => !q.highmem) by rw [h1]; simp [ion_page_pool_create]]
  cases hfh : ps.filter (fun q => q.highmem) with
  | cons p rest => simp
  | nil =>
    cases hfl : ps.filter (fun q => !q.highmem) with
    | cons p rest => simp
    | nil =>
      exfalso
      cases ps with
      | nil => exact hne rfl
      | cons q qs =>
        cases hq : q.highmem with
        | true =>
          have : q ∈ List.filter (fun q => q.highmem) (q :: qs) :=
            List.mem_filter.mpr ⟨List.mem_cons_self q qs, by rw [hq]⟩
          rw [hfh] at this; exact absurd this (List.not_mem_nil q)
        | false =>
          have : q ∈ List.filter (fun q => !q.highmem) (q :: qs) :=
            List.mem_filter.mpr ⟨List.mem_cons_self q qs, by rw [hq]; rfl⟩
          rw [hfl] at this; exact absurd this (List.not_mem_nil q)

/-- Witness for `alloc_fifo_highest_tier`: free A(low) then B(low) into an
empty order-0 pool; alloc returns A. -/
theorem alloc_fifo_highest_tier_witness :
    ([pageA, pageB] : List Page) ≠ [] ∧
    (ion_page_pool_alloc
        (freeAll (ion_page_pool_create 0) [pageA, pageB] 0).1
        (freeAll (ion_page_pool_create 0) [pageA, pageB] 0).2
        false true true none).1 = KRes.ok (pageA, true) :=
  ⟨by decide,
   Eq.trans (alloc_fifo_highest_tier 0 [pageA, pageB] 0 none (by decide))
     (by decide)⟩

theorem shrinkLoop_stop (high : Bool) (n : Nat) (pool : PoolState) (nr : Int)
    (freed : Nat) (hfn : ¬ freed < n) :
    shrinkLoop high n pool nr freed = (KRes.ok freed, pool, nr) := by
  rw [shrinkLoop, if_neg hfn]

theorem shrinkLoop_break (high : Bool) (n : Nat) (pool : PoolState)
    (nr : Int) (freed : Nat) (hlc : pool.low_count = 0)
    (hhc : high = false ∨ pool.high_count = 0) :
    shrinkLoop high n pool nr freed = (KRes.ok freed, pool, nr) := by
  rw [shrinkLoop]
  split
  · rw [if_neg (fun hcon => hcon hlc),
      if_neg (show ¬ (high && decide (pool.high_count ≠ 0)) = true by
        rcases hhc with h | h <;> simp [h])]
  · rfl

theorem shrinkLoop_low_step (high : Bool) (n : Nat) (pool st1 : PoolState)
    (nr nr2 : Int) (p : Page) (freed : Nat) (hfn : freed < n)
    (hlc : pool.low_count ≠ 0)
    (hrem : ion_page_pool_remove pool false nr = some (p, st1, nr2)) :
    shrinkLoop high n pool nr freed
      = shrinkLoop high n st1 nr2 (freed + 2 ^ pool.order) := by
  rw [shrinkLoop, if_pos hfn, if_pos hlc]
  split
  · next heq => rw [hrem] at heq; cases heq
  · next p' st' nr2' heq =>
    rw [hrem] at heq
    simp only [Option.some.injEq, Prod.mk.injEq] at heq
    obtain ⟨-, h2, h3⟩ := heq
    rw [h2, h3]

theorem shrinkLoop_high_step (high : Bool) (n : Nat) (pool st1 : PoolState)
    (nr nr2 : Int) (p : Page) (freed : Nat) (hfn : freed < n)
    (hlc : pool.low_count = 0) (hh : high = true)
    (hhc : pool.high_count ≠ 0)
    (hrem : ion_page_pool_remove pool true nr = some (p, st1, nr2)) :
    shrinkLoop high n pool nr freed
      = shrinkLoop high n st1 nr2 (freed + 2 ^ pool.order) := by
  rw [shrinkLoop, if_pos hfn, if_neg (fun hcon => hcon hlc),
    if_pos (show (high && decide (pool.high_count ≠ 0)) = true by
      simp [hh, hhc])]
  split
  · next heq => rw [hrem] at heq; cases heq
  · next p' st' nr2' heq =>
    rw [hrem] at heq
    simp only [Option.some.injEq, Prod.mk.injEq] at heq
    obtain ⟨-, h2, h3⟩ := heq
    rw [h2, h3]

theorem shrinkLoop_spec (high : Bool) (n : Nat) (sz : Nat) :
    ∀ (pool : PoolState), poolSize pool ≤ sz → wf pool →
    ∀ (nr : Int) (freed : Nat),
    ∃ fr st nr2,
      shrinkLoop high n pool nr freed = (KRes.ok fr, st, nr2) ∧
      wf st ∧ st.order = pool.order ∧
      st.low_count ≤ pool.low_count ∧
      st.high_count ≤ pool.high_count ∧
      (st.high_count < pool.high_count → st.low_count = 0) ∧
      (high = false → st.high_items = pool.high_items
          ∧ st.high_count = pool.high_count) ∧
      (n ≤ fr ∨ (st.low_count = 0 ∧ (high = true → st.high_count = 0))) ∧
      freed ≤ fr ∧ 2 ^ pool.order ∣ (fr - freed) ∧
      (freed < n + 2 ^ pool.order → fr < n + 2 ^ pool.order) := by
  induction sz with
  | zero =>
    intro pool hsz hwf nr freed
    have hlc : pool.low_count = 0 := by
      have := hwf.1
      unfold poolSize at hsz
      omega
    have hhc : pool.high_count = 0 := by
      have := hwf.2
      unfold poolSize at hsz
      omega
    refine ⟨freed, pool, nr,
      shrinkLoop_break high n pool nr freed hlc (Or.inr hhc),
      hwf, rfl, le_refl _, le_refl _, fun h => absurd h (lt_irrefl _),
      fun _ => ⟨rfl, rfl⟩, Or.inr ⟨hlc, fun _ => hhc⟩, le_refl _,
      by simp, fun h => h⟩
  | succ k IH =>
    intro pool hsz hwf nr freed
    by_cases hfn : freed < n
    · by_cases hlc : pool.low_count = 0
      · by_cases hhcc : high = true ∧ pool.high_count ≠ 0
        · -- evict from the HIGH tier
          obtain ⟨hh, hhc⟩ := hhcc
          obtain ⟨p, rest, hl⟩ := wf_high_items_cons hwf hhc
          have hrem := remove_high_eq pool nr p rest hl hhc
          have hwf1 : wf { pool with high_items := rest,
                                     high_count := pool.high_count - 1 } := by
            refine ⟨hwf.1, ?_⟩
            show pool.high_count - 1 = rest.length
            have h2 := hwf.2
            rw [hl, List.length_cons] at h2
            omega
          have hsz1 : poolSize { pool with high_items := rest,
                                           high_count := pool.high_count - 1 }
              ≤ k := by
            unfold poolSize at hsz ⊢
            show pool.low_items.length + rest.length ≤ k
            rw [hl, List.length_cons] at hsz
            omega
          obtain ⟨fr, st, nr2, heq, hwfs, hord, hlow, hhigh, hdrain,
            hframe, hstop, hfle, hdvd, hbnd⟩ :=
            IH _ hsz1 hwf1 (nr - 2 ^ pool.order) (freed + 2 ^ pool.order)
          have hstep := shrinkLoop_high_step high n pool _ nr
            (nr - 2 ^ pool.order) p freed hfn hlc hh hhc hrem
          have hord2 : st.order = pool.order := hord
          have hlow2 : st.low_count ≤ pool.low_count := hlow
          have hhigh2 : st.high_count ≤ pool.high_count - 1 := hhigh
          have hfle2 : freed + 2 ^ pool.order ≤ fr := hfle
          have hdvd2 : 2 ^ pool.order ∣ fr - (freed + 2 ^ pool.order) := hdvd
          have hbnd2 : freed + 2 ^ pool.order < n + 2 ^ pool.order →
              fr < n + 2 ^ pool.order := hbnd
          refine ⟨fr, st, nr2, hstep.trans heq, hwfs, hord2, hlow2, ?_, ?_,
            ?_, hstop, ?_, ?_, ?_⟩
          · omega
          · intro _
            omega
          · intro hf
            rw [hf] at hh
            exact Bool.noConfusion hh
          · omega
          · have h1 : fr - freed = (fr - (freed + 2 ^ pool.order))
                + 2 ^ pool.order := by omega
            rw [h1]
            exact Nat.dvd_add hdvd2 (dvd_refl _)
          · intro _
            exact hbnd2 (by omega)
        · -- break: LOW empty and HIGH not eligible
          have hh2 : high = false ∨ pool.high_count = 0 := by
            cases hb : high with
            | false => exact Or.inl rfl
            | true =>
              right
              by_contra hc
              exact hhcc ⟨hb, hc⟩
          refine ⟨freed, pool, nr,
            shrinkLoop_break high n pool nr freed hlc hh2,
            hwf, rfl, le_refl _, le_refl _,
            fun h => absurd h (lt_irrefl _), fun _ => ⟨rfl, rfl⟩,
            Or.inr ⟨hlc, fun hhx => ?_⟩, le_refl _, by simp, fun h => h⟩
          rcases hh2 with h | h
          · rw [hhx] at h; exact Bool.noConfusion h
          · exact h
      · -- evict from the LOW tier
        obtain ⟨p, rest, hl⟩ := wf_low_items_cons hwf hlc
        have hrem := remove_low_eq pool nr p rest hl hlc
        have hwf1 : wf { pool with low_items := rest,
                                   low_count := pool.low_count - 1 } := by
          refine ⟨?_, hwf.2⟩
          show pool.low_count - 1 = rest.length
          have h1 := hwf.1
          rw [hl, List.length_cons] at h1
          omega
        have hsz1 : poolSize { pool with low_items := rest,
                                         low_count := pool.low_count - 1 }
            ≤ k := by
          unfold poolSize at hsz ⊢
          show rest.length + pool.high_items.length ≤ k
          rw [hl, List.length_cons] at hsz
          omega
        obtain ⟨fr, st, nr2, heq, hwfs, hord, hlow, hhigh, hdrain,
          hframe, hstop, hfle, hdvd, hbnd⟩ :=
          IH _ hsz1 hwf1 (nr - 2 ^ pool.order) (freed + 2 ^ pool.order)
        have hstep := shrinkLoop_low_step high n pool _ nr
          (nr - 2 ^ pool.order) p freed hfn hlc hrem
        have hord2 : st.order = pool.order := hord
        have hlow2 : st.low_count ≤ pool.low_count - 1 := hlow
        have hhigh2 : st.high_count ≤ pool.high_count := hhigh
        have hdrain2 : st.high_count < pool.high_count → st.low_count = 0 :=
          hdrain
        have hframe2 : high = false → st.high_items = pool.high_items
            ∧ st.high_count = pool.high_count := hframe
        have hfle2 : freed + 2 ^ pool.order ≤ fr := hfle
        have hdvd2 : 2 ^ pool.order ∣ fr - (freed + 2 ^ pool.order) := hdvd
        have hbnd2 : freed + 2 ^ pool.order < n + 2 ^ pool.order →
            fr < n + 2 ^ pool.order := hbnd
        refine ⟨fr, st, nr2, hstep.trans heq, hwfs, hord2, ?_, hhigh2,
          hdrain2, hframe2, hstop, ?_, ?_, ?_⟩
        · omega
        · omega
        · have h1 : fr - freed = (fr - (freed + 2 ^ pool.order))
              + 2 ^ pool.order := by omega
          rw [h1]
          exact Nat.dvd_add hdvd2 (dvd_refl _)
        · intro _
          exact hbnd2 (by omega)
    · -- budget already reached
      refine ⟨freed, pool, nr, shrinkLoop_stop high n pool nr freed hfn,
        hwf, rfl, le_refl _, le_refl _, fun h => absurd h (lt_irrefl _),
        fun _ => ⟨rfl, rfl⟩, Or.inl (by omega), le_refl _, by simp,
        fun h => h⟩

theorem dvd_le_roundup (a m n : Nat) (ha : 0 < a) (hdvd : a ∣ m)
    (hlt : m < n + a) : m ≤ ((n + a - 1) / a) * a := by
  obtain ⟨k, rfl⟩ := hdvd
  have hlt2 : k * a < n + a := by
    calc k * a = a * k := Nat.mul_comm k a
    _ < n + a := hlt
  have hk : k ≤ (n + a - 1) / a := by
    rw [Nat.le_div_iff_mul_le ha]
    exact Nat.le_pred_of_lt hlt2
  calc a * k = k * a := Nat.mul_comm a k
    _ ≤ ((n + a - 1) / a) * a := Nat.mul_le_mul_right a hk

/-- C4: for a well-formed pool and a positive scan budget, shrink succeeds
and: any eviction from the HIGH tier happens only after the LOW tier is
fully drained; the HIGH tier is untouched unless the caller is privileged
(kswapd or a high-memory gfp mask); the loop stops only once the freed
amount reaches the budget or the eligible tiers are empty; and the reported
freed amount never exceeds the budget rounded up to the next multiple of the
pool's unit size `2 ^ order`. -/
theorem shrink_drains_low_first_and_bounded (pool : PoolState)
    (kswapd ghm : Bool) (n : Nat) (nr : Int) (hwf : wf pool) (hn : 0 < n) :
    (ion_page_pool_shrink pool kswapd ghm n nr).1
        = KRes.ok (freedOf (ion_page_pool_shrink pool kswapd ghm n nr)) ∧
    ((ion_page_pool_shrink pool kswapd ghm n nr).2.1.high_count
        < pool.high_count →
      (ion_page_pool_shrink pool kswapd ghm n nr).2.1.low_count = 0) ∧
    ((kswapd || ghm) = false →
      (ion_page_pool_shrink pool kswapd ghm n nr).2.1.high_items
          = pool.high_items ∧
      (ion_page_pool_shrink pool kswapd ghm n nr).2.1.high_count
          = pool.high_count) ∧
    (n ≤ freedOf (ion_page_pool_shrink pool kswapd ghm n nr) ∨
      ((ion_page_pool_shrink pool kswapd ghm n nr).2.1.low_count = 0 ∧
       ((kswapd || ghm) = true →
         (ion_page_pool_shrink pool kswapd ghm n nr).2.1.high_count = 0))) ∧
    freedOf (ion_page_pool_shrink pool kswapd ghm n nr)
      ≤ ((n + 2 ^ pool.order - 1) / 2 ^ pool.order) * 2 ^ pool.order := by
  have hne : n ≠ 0 := by omega
  have hsh : ion_page_pool_shrink pool kswapd ghm n nr
      = shrinkLoop (kswapd || ghm) n pool nr 0 := by
    unfold ion_page_pool_shrink
    rw [show (if kswapd then true else ghm) = (kswapd || ghm) by
      cases kswapd <;> rfl]
    rw [if_neg hne]
  obtain ⟨fr, st, nr2, heq, hwfs, hord, hlow, hhigh, hdrain, hframe,
    hstop, hfle, hdvd, hbnd⟩ :=
    shrinkLoop_spec (kswapd || ghm) n (poolSize pool) pool (le_refl _)
      hwf nr 0
  rw [hsh, heq]
  exact ⟨rfl, hdrain, hframe, hstop,
    dvd_le_roundup (2 ^ pool.order) fr n (pow_pos (by omega) _) hdvd
      (hbnd (by omega))⟩

/-- Witness for `shrink_drains_low_first_and_bounded` at `samplePool`
(order 0) with a privileged caller and budget 2. -/
theorem shrink_drains_low_first_and_bounded_witness :
    wf samplePool ∧ 0 < 2 ∧
    ((ion_page_pool_shrink samplePool true false 2 10).1
        = KRes.ok (freedOf (ion_page_pool_shrink samplePool true false 2 10)) ∧
     ((ion_page_pool_shrink samplePool true false 2 10).2.1.high_count
        < samplePool.high_count →
       (ion_page_pool_shrink samplePool true false 2 10).2.1.low_count = 0) ∧
     ((true || false) = false →
       (ion_page_pool_shrink samplePool true false 2 10).2.1.high_items
           = samplePool.high_items ∧
       (ion_page_pool_shrink samplePool true false 2 10).2.1.high_count
           = samplePool.high_count) ∧
     (2 ≤ freedOf (ion_page_pool_shrink samplePool true false 2 10) ∨
       ((ion_page_pool_shrink samplePool true false 2 10).2.1.low_count = 0 ∧
        ((true || false) = true →
          (ion_page_pool_shrink samplePool true false 2 10).2.1.high_count
            = 0))) ∧
     freedOf (ion_page_pool_shrink samplePool true false 2 10)
       ≤ ((2 + 2 ^ samplePool.order - 1) / 2 ^ samplePool.order)
           * 2 ^ samplePool.order) :=
  ⟨by decide, by decide,
   shrink_drains_low_first_and_bounded samplePool true false 2 10
     (by decide) (by decide)⟩

/-- C10: on a well-formed pool the BUG branch of the internal pop
(`ion_page_pool_remove` invoked with a zero tier count) is unreachable from
every caller — `alloc`, `alloc_pool_only` and `shrink` each check the tier
count under the lock before popping, so no call ever produces the modelled
`bug` outcome. -/
theorem remove_bug_unreachable (pool : PoolState) (nr : Int)
    (fatal from_pool lockOk lo kswapd ghm : Bool) (fresh : Option Page)
    (n : Nat) (hwf : wf pool) :
    (ion_page_pool_alloc pool nr fatal from_pool lockOk fresh).1
        ≠ KRes.bug ∧
    (ion_page_pool_alloc_pool_only (some pool) lo nr).1 ≠ KRes.bug ∧
    (ion_page_pool_shrink pool kswapd ghm n nr).1 ≠ KRes.bug := by
  refine ⟨?_, ?_, ?_⟩
  · cases fatal with
    | true =>
      unfold ion_page_pool_alloc
      simp
    | false =>
      cases hfp : from_pool && lockOk with
      | false =>
        unfold ion_page_pool_alloc
        rw [if_neg (by simp), if_neg (by rw [hfp]; simp)]
        cases fresh <;> simp
      | true =>
        obtain ⟨hf, hlk⟩ := Bool.and_eq_true_iff.mp hfp
        subst hf
        subst hlk
        rw [alloc_uncontended_spec pool nr fresh hwf]
        split
        · simp
        · simp
        · cases fresh <;> simp
  · rw [alloc_pool_only_eq pool lo nr hwf]
    split
    · split
      · simp
      · simp
      · simp
    · simp
  · unfold ion_page_pool_shrink
    by_cases hn0 : n = 0
    · simp [hn0]
    · obtain ⟨fr, st, nr2, heq, -⟩ :=
        shrinkLoop_spec (if kswapd then true else ghm) n (poolSize pool)
          pool (le_refl _) hwf nr 0
      simp only [if_neg hn0]
      rw [heq]
      simp

/-- Witness for `remove_bug_unreachable` at `samplePool`. -/
theorem remove_bug_unreachable_witness :
    wf samplePool ∧
    ((ion_page_pool_alloc samplePool 0 false true true none).1
        ≠ KRes.bug ∧
     (ion_page_pool_alloc_pool_only (some samplePool) true 0).1
        ≠ KRes.bug ∧
     (ion_page_pool_shrink samplePool false false 3 0).1 ≠ KRes.bug) :=
  ⟨by decide,
   remove_bug_unreachable samplePool 0 false true true true false false
     none 3 (by decide)⟩

end IonPool
